import Mathlib

/-!
Shallow embedding of the cued-speech drill application (`src/app.js`) of the
repository `iginae_hux_SLP_cued_speak_assist`.

JavaScript strings are modelled as lists of Unicode code points (`List Nat`);
`str` converts a Lean string literal to that representation so that concrete
test inputs stay readable.  Confidence scores are modelled as exact rationals
(`ℚ`); the only comparisons the program performs are `>=` against the literal
threshold `0.30`, whose direction is the same for IEEE doubles and for exact
rationals at every input considered here.
-/

namespace SLPCued

/-- Code points of a Lean string literal, used to write concrete JS strings. -/
def str (s : String) : List Nat := s.data.map Char.toNat

/-- JS `String.prototype.toLowerCase` on one code point, for the ASCII range the
application's keys live in: `A`..`Z` (65..90) map to `a`..`z`, all else fixed. -/
def jsToLowerCode (c : Nat) : Nat := if 65 ≤ c ∧ c ≤ 90 then c + 32 else c

/-- JS `s.toLowerCase()`. -/
def jsLower (s : List Nat) : List Nat := s.map jsToLowerCode

/-- The white-space code points JS `trim` strips (space, tab, LF, VT, FF, CR). -/
def isJsWhitespace (c : Nat) : Bool := c = 32 || c = 9 || c = 10 || c = 11 || c = 12 || c = 13

/-- JS `s.trim()`: drop white space from both ends. -/
def jsTrim (s : List Nat) : List Nat :=
  ((s.dropWhile isJsWhitespace).reverse.dropWhile isJsWhitespace).reverse

/-- JS `s.split('_').join(' ')`: splitting on a single character and joining with a
single character replaces every occurrence, here underscore (95) by space (32). -/
def undToSp (s : List Nat) : List Nat := s.map (fun c => if c = 95 then 32 else c)

/-- JS `s.split(sep)` for a one-character separator: never empty, `"".split` is `[""]`. -/
def jsSplit (sep : Nat) : List Nat → List (List Nat)
  | [] => [[]]
  | c :: rest =>
    match jsSplit sep rest with
    | [] => [[c]]
    | w :: ws => if c = sep then [] :: w :: ws else (c :: w) :: ws

/-- One parsed drill target (`app.js` lines 45-50): the four trimmed fields of a
config line, in source order `key, display, path, category`. -/
structure DrillItem where
  key : List Nat
  display : List Nat
  path : List Nat
  category : List Nat
deriving DecidableEq, Repr

/-- One ranked alternative of a Vosk final result: a text and an optional numeric
confidence (`conf` may be absent in the JSON). -/
structure Alternative where
  text : List Nat
  conf : Option ℚ
deriving DecidableEq, Repr

/-- A Vosk final result as consumed by `app.js`: the transcript `text` and the
optional `alternatives` array. -/
structure FinalResult where
  text : List Nat
  alternatives : Option (List Alternative)
deriving DecidableEq, Repr

/-- `app.js` line 6: `const CONFIDENCE_THRESHOLD = 0.30`. -/
def CONFIDENCE_THRESHOLD : ℚ := mkRat 30 100

/-- `app.js` line 108: `key.toLowerCase().trim().split('_').join(' ')` — the key
canonicalisation the code applies: lower-case, then trim, then underscore to space. -/
def canonTargetKey (key : List Nat) : List Nat := undToSp (jsTrim (jsLower key))

/-- `app.js` line 119: `text.toLowerCase().trim()` applied to the compared text. -/
def canonRecognized (t : List Nat) : List Nat := jsTrim (jsLower t)

/-- `app.js` line 111: `result.alternatives ? result.alternatives[0] : null`.
A missing array gives `null`; an empty array is truthy in JS but its element `[0]`
is `undefined`, so both cases give no alternative. -/
def bestAlternative (r : FinalResult) : Option Alternative :=
  match r.alternatives with
  | none => none
  | some l => l.head?

/-- `app.js` line 120: `bestAlternative.conf || 0` — an absent `conf` (and the falsy
number `0` itself) is read as `0`. -/
def confOf (a : Alternative) : ℚ :=
  match a.conf with
  | none => 0
  | some c => c

/-- Verdicts `checkResult` can display (`app.js` lines 113-136): the distinct
"Failed to recognize speech" message, the CORRECT message, the TRY AGAIN message. -/
inductive Verdict where
  | noSpeech
  | correct
  | incorrect
deriving DecidableEq, Repr

/-- `app.js` lines 106-139, `checkResult`: canonicalise the current key, take the
first alternative (none → the no-speech message), and declare CORRECT exactly when
the canonicalised alternative text equals the canonicalised key and the confidence
meets the threshold.  (`recognizedText` of line 107 is computed but never compared.) -/
def checkResult (key : List Nat) (r : FinalResult) : Verdict :=
  match bestAlternative r with
  | none => Verdict.noSpeech
  | some alt =>
    let recognizedWord := canonRecognized alt.text
    let targetKey := canonTargetKey key
    let confidence := confOf alt
    if recognizedWord = targetKey ∧ confidence ≥ CONFIDENCE_THRESHOLD then
      Verdict.correct
    else
      Verdict.incorrect

/-- Outcome of the `recognizer.onfinalresult` handler (`app.js` lines 91-97): when
`finalResult.text` is falsy (the empty string) `checkResult` is never invoked and no
verdict is displayed; otherwise `checkResult` runs. -/
inductive FinalOutcome where
  | noVerdict
  | verdict (v : Verdict)
deriving DecidableEq, Repr

/-- `app.js` lines 91-97: `if (finalResult.text) checkResult(finalResult)`. -/
def onFinalResult (key : List Nat) (r : FinalResult) : FinalOutcome :=
  if r.text = [] then FinalOutcome.noVerdict else FinalOutcome.verdict (checkResult key r)

/-- The claim-side key canonicalisation in the order the specification writes it:
underscores replaced by spaces, then lower-cased, then trimmed.  Kept separate from
`canonTargetKey` (the source's order) so the two can be compared. -/
def specCanonKey (key : List Nat) : List Nat := jsTrim (jsLower (undToSp key))

/-! ## Target-list parsing (`loadTargets`, `app.js` lines 40-58) -/

/-- `app.js` line 43: `line.split(',').map(p => p.trim())` — code point 44 is `,`. -/
def lineFields (line : List Nat) : List (List Nat) := (jsSplit 44 line).map jsTrim

/-- `app.js` lines 43-52: a line becomes a `DrillItem` from its four trimmed fields
when there are exactly four, and `null` otherwise. -/
def parseLine (line : List Nat) : Option DrillItem :=
  match lineFields line with
  | [k, d, p, c] => some { key := k, display := d, path := p, category := c }
  | _ => none

/-- `app.js` lines 40-53: `text.trim().split('\n')` (code point 10 is the newline),
each line mapped through the four-field parse, `null` results filtered out. -/
def loadTargetsParse (text : List Nat) : List DrillItem :=
  (((jsSplit 10 (jsTrim text)).map parseLine).filterMap id)

/-- What `loadTargets` puts on the display surface after a successful fetch
(`app.js` lines 55-61): the format-error message when no valid line remains,
otherwise the loaded count (and the enabled navigation). -/
inductive LoadDisplay where
  | formatError
  | loaded (n : Nat)
deriving DecidableEq, Repr

/-- `app.js` lines 55-61: `if (targets.length === 0)` show the error message, else
report the number of loaded targets.  A total function: the zero-valid-lines case is
a displayed message, not a thrown fault. -/
def loadTargetsDisplay (text : List Nat) : LoadDisplay :=
  if (loadTargetsParse text).isEmpty then LoadDisplay.formatError
  else LoadDisplay.loaded (loadTargetsParse text).length

/-! ## Grammar construction (`setupRecognizer`, `app.js` lines 70-88) -/

/-- `app.js` line 75: `t.key.toLowerCase().split('_').join(' ')`. -/
def grammarPhrase (t : DrillItem) : List Nat := undToSp (jsLower t.key)

/-- `app.js` line 75: `targets.map(t => ...)` — the phrase list handed to Vosk. -/
def grammarList (ts : List DrillItem) : List (List Nat) := ts.map grammarPhrase

/-- The claim-side phrase derivation in the order the specification writes it:
underscores replaced with spaces, then lower-cased. -/
def specGrammarPhrase (t : DrillItem) : List Nat := jsLower (undToSp t.key)

/-! ## Target advance (`nextTarget`, `app.js` lines 207-210) -/

/-- `app.js` line 208 on the index alone:
`currentTargetIndex = (currentTargetIndex + 1) % targets.length`. -/
def nextIndex (len i : Nat) : Nat := (i + 1) % len

/-- The session data the index operations touch: the loaded targets and the current
index (`app.js` lines 16-17). -/
structure SessionSt where
  targets : List DrillItem
  currentTargetIndex : Nat
deriving DecidableEq, Repr

/-- The session right after `loadTargets` ran on `text` at application start
(`app.js` lines 217-223): the parsed targets, with `currentTargetIndex` still at its
initial value `0` (`loadTargets` never writes the index). -/
def loadState (text : List Nat) : SessionSt :=
  { targets := loadTargetsParse text, currentTargetIndex := 0 }

/-- `app.js` lines 207-210, `nextTarget`, on the session data.  JS `%` by zero would
give `NaN`; the app only invokes `nextTarget` through the Next button, which is
enabled only after a load with at least one target (`app.js` line 61), and every
theorem below about a state with an empty target list is vacuous about the index. -/
def nextTargetSt (s : SessionSt) : SessionSt :=
  { s with currentTargetIndex := (s.currentTargetIndex + 1) % s.targets.length }

/-! ## Capture-pipeline teardown (`stopRecognition`, `app.js` lines 194-205)

The three teardown statements call external browser objects; whether each such call
raises is not determined by this repository, so it is an environment parameter.
JavaScript statement semantics: the statements run in source order and an uncaught
synchronous exception aborts the statements after it (`stopRecognition` contains no
`try`/`catch`). -/

/-- The three teardown actions of `stopRecognition`, in source order. -/
inductive TStep where
  | stopTracks
  | disconnectProcessor
  | closeAudioContext
deriving DecidableEq, Repr

/-- Which of the three global resources are non-null when `stopRecognition` runs,
and whether each external call would raise if attempted. -/
structure TeardownEnv where
  hasMediaStream : Bool
  hasProcessor : Bool
  hasAudioContext : Bool
  stopThrows : Bool
  disconnectThrows : Bool
  closeThrows : Bool
deriving DecidableEq, Repr

/-- `app.js` lines 194-205: run the three `if`-guarded statements in order; the
result is the list of steps actually attempted and whether the function returned
normally (`false` means an exception escaped, aborting the remaining statements). -/
def stopRecognitionRun (env : TeardownEnv) : List TStep × Bool :=
  let s1 : List TStep := if env.hasMediaStream then [TStep.stopTracks] else []
  if env.hasMediaStream && env.stopThrows then (s1, false)
  else
    let s2 := s1 ++ (if env.hasProcessor then [TStep.disconnectProcessor] else [])
    if env.hasProcessor && env.disconnectThrows then (s2, false)
    else
      let s3 := s2 ++ (if env.hasAudioContext then [TStep.closeAudioContext] else [])
      if env.hasAudioContext && env.closeThrows then (s3, false)
      else (s3, true)

/-! ## Start/stop session machine (`app.js` lines 155-213)

The mutable globals of `app.js` that the start/stop cycle touches, driven by the
events that can reach them: a click on the Start button (the only caller of
`startRecognition`, line 213; a click on a disabled button fires no handler), a
click on the Next button (the only caller of `nextTarget`, line 214; enabled
exactly when a load found at least one target, line 61, and never disabled again),
and the recognizer's final-result callback (which always ends in
`stopRecognition`, line 96).  Acquired audio objects are represented by fresh
numeric identities so that "the pipeline was not replaced" is expressible. -/

structure AppState where
  /-- `recognizer` is non-null (`setupRecognizer` assigns it only when targets are
  loaded, `app.js` line 71). -/
  recognizerReady : Bool
  /-- `startButton.disabled`. -/
  startDisabled : Bool
  /-- Identity of the current `audioContext`, if one was ever created. -/
  audioContext : Option Nat
  /-- Identity of the current `mediaStream`. -/
  mediaStream : Option Nat
  /-- Identity of the current `processor`. -/
  processor : Option Nat
  /-- Source of fresh identities for newly created audio objects. -/
  fresh : Nat
  /-- A capture pipeline is connected and feeding the recognizer (between the
  successful end of `startRecognition` and the next `stopRecognition`). -/
  capturing : Bool
  /-- `targets.length > 0` held when `setupRecognizer` would run (constant here:
  the target list is loaded once, before any click). -/
  targetsLoaded : Bool
deriving DecidableEq, Repr

/-- The events that drive the capture cycle: a Start-button click (with the outcome
the microphone permission request would have), a Next-button click, and the
recognizer's final result. -/
inductive AppEvent where
  | clickStart (micGranted : Bool)
  | clickNext
  | finalResult
deriving DecidableEq, Repr

/-- One event step.  `clickStart`: a disabled button fires nothing (`app.js` line
163 disables it for the whole capture); with no recognizer, `startRecognition` only
runs `setupRecognizer` and returns (lines 156-160, and `setupRecognizer` line 71
returns at once when no targets are loaded); otherwise it disables the button,
creates a fresh `AudioContext`, requests the microphone — on grant it builds and
connects the processor (lines 167-184), on denial the `catch` re-enables the button
(lines 186-191, the fresh context is kept, never closed).  `clickNext`: when the
Next button is enabled (a non-empty load happened, line 61; it is never disabled
afterwards), `nextTarget` (lines 207-210) advances the index — modelled separately
by `nextTargetSt` — and calls `updateTarget` (lines 142-151), which rewrites the
prompt, clears the feedback and re-enables the Start button at line 150; it neither
stops the capture pipeline nor touches the recognizer.  `finalResult`: the handler
ends in `stopRecognition` (lines 91-97, 194-205), which re-enables the button and
tears the pipeline down (the globals keep pointing at the dead objects). -/
def stepApp (s : AppState) (e : AppEvent) : AppState :=
  match e with
  | AppEvent.clickStart micGranted =>
    if s.startDisabled then s
    else if !s.recognizerReady then { s with recognizerReady := s.targetsLoaded }
    else if micGranted then
      { s with startDisabled := true,
               audioContext := some s.fresh,
               mediaStream := some (s.fresh + 1),
               processor := some (s.fresh + 2),
               fresh := s.fresh + 3,
               capturing := true }
    else
      { s with startDisabled := false,
               audioContext := some s.fresh,
               fresh := s.fresh + 1 }
  | AppEvent.clickNext =>
    if s.targetsLoaded then { s with startDisabled := false } else s
  | AppEvent.finalResult =>
    { s with startDisabled := false, capturing := false }

/-- The state at application start: no recognizer, nothing acquired, Start enabled;
`targetsLoaded` records whether the initial `loadTargets` found at least one valid
line. -/
def initApp (targetsLoaded : Bool) : AppState :=
  { recognizerReady := false, startDisabled := false, audioContext := none,
    mediaStream := none, processor := none, fresh := 0, capturing := false,
    targetsLoaded := targetsLoaded }

/-- The state after a sequence of events from application start. -/
def runApp (targetsLoaded : Bool) (evs : List AppEvent) : AppState :=
  evs.foldl stepApp (initApp targetsLoaded)

/-! ## Helper lemmas -/

/-- When a first alternative exists, `checkResult` is the bare threshold test. -/
lemma checkResult_eq_of_best (key : List Nat) (r : FinalResult) (alt : Alternative)
    (hb : bestAlternative r = some alt) :
    checkResult key r =
      if canonRecognized alt.text = canonTargetKey key ∧
          confOf alt ≥ CONFIDENCE_THRESHOLD then Verdict.correct
      else Verdict.incorrect := by
  unfold checkResult
  rw [hb]

/-- `nextTarget` never touches the target list, however often it is iterated. -/
lemma iterate_nextTargetSt_targets (k : Nat) (s : SessionSt) :
    (nextTargetSt^[k] s).targets = s.targets := by
  induction k with
  | zero => rfl
  | succ k ih => rw [Function.iterate_succ_apply']; simpa [nextTargetSt] using ih

/-- Iterating `nextTarget` from index `0` reaches index `k % N`. -/
lemma iterate_nextTargetSt_index (ts : List DrillItem) (k : Nat) :
    (nextTargetSt^[k] { targets := ts, currentTargetIndex := 0 }).currentTargetIndex
      = k % ts.length := by
  induction k with
  | zero => simp
  | succ k ih =>
      rw [Function.iterate_succ_apply']
      have hts := iterate_nextTargetSt_targets k
        { targets := ts, currentTargetIndex := 0 }
      simp only [nextTargetSt, hts, ih]
      exact Nat.mod_add_mod k ts.length 1

/-! ## Claims -/

/-- Claim C5: advance is cyclic — each advance sets the current index to
`(index + 1) % N`, and for a non-empty target sequence of length `N`, advancing `N`
times from index `0` visits the indices `0, 1, ..., N-1` in order (the index after
`k` advances is `k` for every `k < N`) and returns to index `0`. -/
theorem claim_C5 (ts : List DrillItem) (_hne : ts ≠ []) :
    (∀ s : SessionSt, (nextTargetSt s).currentTargetIndex
        = (s.currentTargetIndex + 1) % s.targets.length) ∧
    (∀ k, k < ts.length →
      (nextTargetSt^[k] { targets := ts, currentTargetIndex := 0 }).currentTargetIndex = k) ∧
    (nextTargetSt^[ts.length]
        { targets := ts, currentTargetIndex := 0 }).currentTargetIndex = 0 := by
  refine ⟨fun s => rfl, fun k hk => ?_, ?_⟩
  · rw [iterate_nextTargetSt_index, Nat.mod_eq_of_lt hk]
  · rw [iterate_nextTargetSt_index, Nat.mod_self]

/-- Witness for C5 at a concrete three-element target sequence. -/
theorem claim_C5_witness :
    (nextTargetSt^[3]
        { targets := [{ key := str "a", display := str "b", path := str "c", category := str "d" },
                      { key := str "e", display := str "f", path := str "g", category := str "h" },
                      { key := str "i", display := str "j", path := str "k", category := str "l" }],
          currentTargetIndex := 0 }).currentTargetIndex = 0 := by
  have h := claim_C5
    [{ key := str "a", display := str "b", path := str "c", category := str "d" },
     { key := str "e", display := str "f", path := str "g", category := str "h" },
     { key := str "i", display := str "j", path := str "k", category := str "l" }]
    (by decide)
  simpa using h.2.2

/-- Claim C7: whenever the target list is non-empty the current index is a valid
index into it, along the whole actual lifecycle of the index: the state produced by
the startup load of any config text, followed by any number of advances. -/
theorem claim_C7 (text : List Nat) (k : Nat)
    (hne : (nextTargetSt^[k] (loadState text)).targets ≠ []) :
    (nextTargetSt^[k] (loadState text)).currentTargetIndex
      < (nextTargetSt^[k] (loadState text)).targets.length := by
  have hts := iterate_nextTargetSt_targets k (loadState text)
  have hne2 : loadTargetsParse text ≠ [] := by
    rw [hts] at hne; exact hne
  have hidx := iterate_nextTargetSt_index (loadTargetsParse text) k
  have heq : loadState text
      = { targets := loadTargetsParse text, currentTargetIndex := 0 } := rfl
  rw [← heq] at hidx
  rw [hidx, hts]
  exact Nat.mod_lt _ (List.length_pos.mpr hne2)

/-- Witness for C7: a two-line config, five advances. -/
theorem claim_C7_witness :
    (nextTargetSt^[5] (loadState (str "a,b,c,d\ne,f,g,h"))).currentTargetIndex
      < (nextTargetSt^[5] (loadState (str "a,b,c,d\ne,f,g,h"))).targets.length :=
  claim_C7 (str "a,b,c,d\ne,f,g,h") 5 (by decide)

/-- Claim C10: when the first ranked alternative carries no numeric confidence
(`conf` absent, or the falsy number `0`), the evaluator reads the confidence as `0`
and the verdict is Incorrect — whatever the key and the recognized text, including
when their canonical forms are exactly equal. -/
theorem claim_C10 (key : List Nat) (r : FinalResult) (alt : Alternative)
    (hb : bestAlternative r = some alt)
    (hc : alt.conf = none ∨ alt.conf = some 0) :
    confOf alt = 0 ∧ checkResult key r = Verdict.incorrect := by
  have hconf : confOf alt = 0 := by
    rcases hc with h | h <;> simp [confOf, h]
  refine ⟨hconf, ?_⟩
  rw [checkResult_eq_of_best key r alt hb, if_neg]
  intro h
  rw [hconf] at h
  exact absurd h.2 (by decide)

/-- Pointwise: lower-casing commutes with the underscore-to-space substitution
(the space `32` and the underscore `95` are fixed by `jsToLowerCode`, and no code
point lower-cases to `95`). -/
lemma lowerCode_comm_underscore (c : Nat) :
    jsToLowerCode (if c = 95 then 32 else c)
      = (if jsToLowerCode c = 95 then 32 else jsToLowerCode c) := by
  by_cases hc : c = 95
  · subst hc; decide
  · rw [if_neg hc]
    have h95 : jsToLowerCode c ≠ 95 := by
      unfold jsToLowerCode
      split_ifs with h
      · omega
      · exact hc
    rw [if_neg h95]

/-- Claim C6: the grammar builder maps each target's key to a spoken phrase by
replacing underscores with spaces and lower-casing (the source applies the two in
the other order, which yields the same phrase), preserves the sequence's order,
length and duplicates (it is exactly the elementwise map), and is deterministic. -/
theorem claim_C6 (ts : List DrillItem) :
    grammarList ts = ts.map specGrammarPhrase ∧
    (grammarList ts).length = ts.length ∧
    (∀ ts2 : List DrillItem, ts = ts2 → grammarList ts = grammarList ts2) := by
  refine ⟨?_, List.length_map _ _, fun ts2 h => by rw [h]⟩
  unfold grammarList
  apply List.map_congr_left
  intro t _
  unfold grammarPhrase specGrammarPhrase undToSp jsLower
  rw [List.map_map, List.map_map]
  apply List.map_congr_left
  intro c _
  simpa using (lowerCode_comm_underscore c).symm

/-- Witness for C6 at a one-element target sequence. -/
theorem claim_C6_witness :
    grammarList [{ key := str "Touch_Your_Nose", display := str "p",
                   path := str "q", category := str "r" }]
      = [{ key := str "Touch_Your_Nose", display := str "p",
           path := str "q", category := str "r" }].map specGrammarPhrase :=
  (claim_C6 [{ key := str "Touch_Your_Nose", display := str "p",
               path := str "q", category := str "r" }]).1

/-- A list of length four is exactly a four-element literal. -/
lemma length_eq_four_exists {α : Type} {l : List α} (h : l.length = 4) :
    ∃ a b c d, l = [a, b, c, d] := by
  match l, h with
  | [a, b, c, d], _ => exact ⟨a, b, c, d, rfl⟩

/-- Claim C2: every line whose comma-split yields exactly four trimmed fields
produces one `DrillItem` holding those fields verbatim in order; every other line
yields nothing; the parse is the in-order concatenation of the per-line results over
the lines of the trimmed text; and the zero-valid-lines case is exactly the case in
which the format-error message is displayed (a total function — no fault escapes). -/
theorem claim_C2 (text : List Nat) :
    (∀ line : List Nat, ∀ h4 : (lineFields line).length = 4,
      parseLine line = some
        { key := (lineFields line).get ⟨0, by omega⟩,
          display := (lineFields line).get ⟨1, by omega⟩,
          path := (lineFields line).get ⟨2, by omega⟩,
          category := (lineFields line).get ⟨3, by omega⟩ }) ∧
    (∀ line : List Nat, (lineFields line).length ≠ 4 → parseLine line = none) ∧
    loadTargetsParse text = (jsSplit 10 (jsTrim text)).filterMap parseLine ∧
    (loadTargetsDisplay text = LoadDisplay.formatError ↔ loadTargetsParse text = []) := by
  refine ⟨?_, ?_, ?_, ?_⟩
  · intro line h4
    obtain ⟨a, b, c, d, heq⟩ := length_eq_four_exists h4
    simp [parseLine, heq]
  · intro line h
    unfold parseLine
    rcases hl : lineFields line with _ | ⟨a, _ | ⟨b, _ | ⟨c, _ | ⟨d, _ | ⟨e, tl⟩⟩⟩⟩⟩ <;>
      simp_all
  · unfold loadTargetsParse
    rw [List.filterMap_map]
    simp
  · unfold loadTargetsDisplay
    split_ifs with h
    · simp_all [List.isEmpty_iff]
    · simp_all [List.isEmpty_iff]

/-- Witness for C2: a well-formed line parses to its four trimmed fields, a
two-field line is dropped, and an all-malformed text shows the format error. -/
theorem claim_C2_witness :
    parseLine (str "x,y") = none ∧
    (loadTargetsDisplay (str "only one,field count bad") = LoadDisplay.formatError ↔
      loadTargetsParse (str "only one,field count bad") = []) :=
  ⟨(claim_C2 (str "")).2.1 (str "x,y") (by decide),
   (claim_C2 (str "only one,field count bad")).2.2.2⟩

/-- A final result carrying a single ranked alternative, the usual happy-path
shape, used for concrete matching examples. -/
def oneAlt (t : List Nat) (c : ℚ) : FinalResult :=
  { text := t, alternatives := some [{ text := t, conf := some c }] }

/-- Claim C1, counterexample: the claim canonicalises the key as underscore→space,
then lower-case, then trim.  At key `"_touch"`, recognized `"touch"`, confidence
`1`, that canonical key equals the canonical recognized text and the threshold is
met, so the claim demands Correct — but the code trims before substituting
underscores, keeps the resulting leading space, and answers Incorrect. -/
theorem claim_C1_counterexample :
    specCanonKey (str "_touch") = canonRecognized (str "touch") ∧
    mkRat 1 1 ≥ CONFIDENCE_THRESHOLD ∧
    checkResult (str "_touch") (oneAlt (str "touch") (mkRat 1 1))
      = Verdict.incorrect := by decide

/-- Claim C1 as amended: with the key canonicalised the way the code does it
(lower-case, trim, then underscore→space — which agrees with the claim's order on
every key whose trimmed form neither starts nor ends with an underscore), the
verdict is Correct iff the canonical recognized text equals the canonical key and
the confidence is at least the threshold `0.30`, and otherwise it is Incorrect; the
three quoted examples hold as stated. -/
theorem claim_C1_amended :
    (∀ (key : List Nat) (r : FinalResult) (alt : Alternative),
      bestAlternative r = some alt →
        ((checkResult key r = Verdict.correct ↔
            (canonRecognized alt.text = canonTargetKey key ∧
             confOf alt ≥ CONFIDENCE_THRESHOLD)) ∧
         (checkResult key r = Verdict.correct ∨
          checkResult key r = Verdict.incorrect))) ∧
    checkResult (str "touch_your_nose")
      (oneAlt (str "touch your nose") (mkRat 30 100)) = Verdict.correct ∧
    checkResult (str "touch_your_nose")
      (oneAlt (str "touch your nose") (mkRat 29 100)) = Verdict.incorrect ∧
    (∀ c : ℚ, checkResult (str "touch_your_nose")
      (oneAlt (str "touch you nose") c) = Verdict.incorrect) := by
  refine ⟨?_, by decide, by decide, ?_⟩
  · intro key r alt hb
    rw [checkResult_eq_of_best key r alt hb]
    constructor
    · constructor
      · intro h
        by_contra hcond
        rw [if_neg hcond] at h
        exact absurd h (by decide)
      · intro h
        rw [if_pos h]
    · split_ifs
      · exact Or.inl rfl
      · exact Or.inr rfl
  · intro c
    rw [checkResult_eq_of_best (str "touch_your_nose")
        (oneAlt (str "touch you nose") c)
        { text := str "touch you nose", conf := some c } rfl, if_neg]
    intro h
    have hne : canonRecognized (str "touch you nose")
        ≠ canonTargetKey (str "touch_your_nose") := by decide
    exact hne h.1

/-- Witness for the amended C1: the Correct iff at the concrete passing example,
and the wrong-word example at an arbitrary high confidence. -/
theorem claim_C1_amended_witness :
    (checkResult (str "touch_your_nose")
        (oneAlt (str "touch your nose") (mkRat 30 100)) = Verdict.correct ↔
      (canonRecognized (str "touch your nose") = canonTargetKey (str "touch_your_nose") ∧
       confOf { text := str "touch your nose", conf := some (mkRat 30 100) }
         ≥ CONFIDENCE_THRESHOLD)) ∧
    checkResult (str "touch_your_nose")
      (oneAlt (str "touch you nose") (mkRat 99 100)) = Verdict.incorrect :=
  ⟨(claim_C1_amended.1 (str "touch_your_nose")
      (oneAlt (str "touch your nose") (mkRat 30 100))
      { text := str "touch your nose", conf := some (mkRat 30 100) } rfl).1,
   claim_C1_amended.2.2.2 (mkRat 99 100)⟩

/-- `jsToLowerCode` is idempotent. -/
lemma jsToLowerCode_idem (c : Nat) :
    jsToLowerCode (jsToLowerCode c) = jsToLowerCode c := by
  unfold jsToLowerCode
  split_ifs <;> omega

/-- Trimming only ever keeps code points of the original string. -/
lemma mem_of_mem_jsTrim {a : Nat} {l : List Nat} (h : a ∈ jsTrim l) : a ∈ l := by
  unfold jsTrim at h
  rw [List.mem_reverse] at h
  have h2 := (List.dropWhile_sublist _).mem h
  rw [List.mem_reverse] at h2
  exact (List.dropWhile_sublist _).mem h2

/-- The underscore substitution is idempotent (its output contains no underscore). -/
lemma undToSp_idem (l : List Nat) : undToSp (undToSp l) = undToSp l := by
  unfold undToSp
  rw [List.map_map]
  apply List.map_congr_left
  intro c _
  by_cases h : c = 95 <;> simp [h]

/-- The canonical key is already lower-case. -/
lemma jsLower_canonTargetKey (s : List Nat) :
    jsLower (canonTargetKey s) = canonTargetKey s := by
  unfold canonTargetKey undToSp jsLower
  rw [List.map_map]
  have : ∀ a ∈ jsTrim (List.map jsToLowerCode s),
      (jsToLowerCode ∘ fun c => if c = 95 then 32 else c) a
        = (fun c => if c = 95 then 32 else c) a := by
    intro a ha
    obtain ⟨x, _, hx⟩ := List.mem_map.mp (mem_of_mem_jsTrim ha)
    show jsToLowerCode (if a = 95 then 32 else a) = (if a = 95 then 32 else a)
    by_cases h95 : a = 95
    · subst h95; decide
    · rw [if_neg h95, ← hx, jsToLowerCode_idem]
  rw [List.map_congr_left this]

/-- Claim C3, counterexample: the canonicalisation the code applies to the key
(lower-case, trim, then underscore→space) is not idempotent — on `"_a_"` the first
application gives `" a "` and the second trims it down to `"a"`. -/
theorem claim_C3_counterexample :
    canonTargetKey (canonTargetKey (str "_a_")) ≠ canonTargetKey (str "_a_") := by
  decide

/-- Claim C3 as amended: the code's key canonicalisation is idempotent on every
string whose canonical form is already whitespace-trimmed — equivalently, whenever
the trimmed lower-cased key does not start or end with an underscore (underscores at
the ends become spaces that only a second pass would trim). -/
theorem claim_C3_amended (s : List Nat)
    (h : jsTrim (canonTargetKey s) = canonTargetKey s) :
    canonTargetKey (canonTargetKey s) = canonTargetKey s := by
  conv_lhs => rw [canonTargetKey, jsLower_canonTargetKey s, h]
  exact undToSp_idem _

/-- Witness for the amended C3 at the drill key of the running example. -/
theorem claim_C3_amended_witness :
    canonTargetKey (canonTargetKey (str "touch_your_nose"))
      = canonTargetKey (str "touch_your_nose") :=
  claim_C3_amended (str "touch_your_nose") (by decide)

/-- Claim C4, counterexample: on a final result with an empty recognized string the
handler skips the evaluator entirely (`if (finalResult.text)`), so no verdict is
displayed at all — not the distinct no-speech verdict the claim requires. -/
theorem claim_C4_counterexample :
    onFinalResult (str "touch_nose") { text := [], alternatives := none }
        = FinalOutcome.noVerdict ∧
    FinalOutcome.noVerdict ≠ FinalOutcome.verdict Verdict.noSpeech := by decide

/-- Claim C4 as amended: when the final text is non-empty but no first ranked
alternative is supplied, the evaluator yields the distinct no-speech verdict; when
the recognized text is empty, the handler displays no verdict at all; in neither
case is the Incorrect verdict produced. -/
theorem claim_C4_amended (key : List Nat) (r : FinalResult) :
    (r.text ≠ [] → bestAlternative r = none →
      onFinalResult key r = FinalOutcome.verdict Verdict.noSpeech) ∧
    (r.text = [] → onFinalResult key r = FinalOutcome.noVerdict) ∧
    ((r.text = [] ∨ bestAlternative r = none) →
      onFinalResult key r ≠ FinalOutcome.verdict Verdict.incorrect) := by
  refine ⟨?_, ?_, ?_⟩
  · intro ht hb
    rw [onFinalResult, if_neg ht]
    unfold checkResult
    rw [hb]
  · intro ht
    rw [onFinalResult, if_pos ht]
  · intro hor
    rcases hor with ht | hb
    · rw [onFinalResult, if_pos ht]
      intro h
      exact absurd h (by decide)
    · by_cases ht : r.text = []
      · rw [onFinalResult, if_pos ht]
        intro h
        exact absurd h (by decide)
      · rw [onFinalResult, if_neg ht]
        unfold checkResult
        rw [hb]
        show FinalOutcome.verdict Verdict.noSpeech ≠ FinalOutcome.verdict Verdict.incorrect
        decide

/-- Witness for the amended C4: a non-empty text with a missing alternatives array
yields the no-speech verdict, not Incorrect. -/
theorem claim_C4_amended_witness :
    onFinalResult (str "touch_nose") { text := str "touch nose", alternatives := none }
      = FinalOutcome.verdict Verdict.noSpeech :=
  (claim_C4_amended (str "touch_nose")
    { text := str "touch nose", alternatives := none }).1 (by decide) rfl

/-- Claim C8, counterexample: `stopRecognition` has no per-step exception
protection — when all three resources are live and stopping the media tracks
throws, only that first step is ever attempted: the processor disconnect and the
context close are skipped. -/
theorem claim_C8_counterexample :
    (stopRecognitionRun
      { hasMediaStream := true, hasProcessor := true, hasAudioContext := true,
        stopThrows := true, disconnectThrows := false, closeThrows := false }).1
      = [TStep.stopTracks] ∧
    TStep.disconnectProcessor ∉
      (stopRecognitionRun
        { hasMediaStream := true, hasProcessor := true, hasAudioContext := true,
          stopThrows := true, disconnectThrows := false, closeThrows := false }).1 := by
  decide

/-- Claim C8 as amended: the teardown runs the three steps in source order, each
guarded only by its own presence check, so the absence of any resource never skips
the remaining steps, and whenever no attempted step throws, every present
resource's step is attempted and the function returns normally; a step that does
throw, however, aborts the steps after it. -/
theorem claim_C8_amended (env : TeardownEnv)
    (h1 : env.hasMediaStream = true → env.stopThrows = false)
    (h2 : env.hasProcessor = true → env.disconnectThrows = false)
    (h3 : env.hasAudioContext = true → env.closeThrows = false) :
    (stopRecognitionRun env).1 =
      (if env.hasMediaStream then [TStep.stopTracks] else []) ++
      (if env.hasProcessor then [TStep.disconnectProcessor] else []) ++
      (if env.hasAudioContext then [TStep.closeAudioContext] else []) ∧
    (stopRecognitionRun env).2 = true := by
  rcases env with ⟨ms, pr, ac, st, dt, ct⟩
  revert h1 h2 h3
  cases ms <;> cases pr <;> cases ac <;> cases st <;> cases dt <;> cases ct <;> decide

/-- Witness for the amended C8: with no media stream but a live processor and
context, both remaining steps still run. -/
theorem claim_C8_amended_witness :
    (stopRecognitionRun
      { hasMediaStream := false, hasProcessor := true, hasAudioContext := true,
        stopThrows := false, disconnectThrows := false, closeThrows := false }).1
      = [TStep.disconnectProcessor, TStep.closeAudioContext] ∧
    (stopRecognitionRun
      { hasMediaStream := false, hasProcessor := true, hasAudioContext := true,
        stopThrows := false, disconnectThrows := false, closeThrows := false }).2
      = true := by
  have h := claim_C8_amended
    { hasMediaStream := false, hasProcessor := true, hasAudioContext := true,
      stopThrows := false, disconnectThrows := false, closeThrows := false }
    (by decide) (by decide) (by decide)
  simpa using h

/-- Claim C9, evaluated at its failing input: the Start button is disabled for the
whole capture (`app.js` line 163), but `updateTarget` — run by every Next click —
re-enables it at line 150 without stopping the capture.  After the reachable click
sequence Start (initialises the recognizer), Start (microphone granted, capture
begins), Next, the capture is still in progress yet Start is clickable again, and a
further Start click is not a no-op: it acquires a second pipeline, replacing the
audio context, media stream and processor identities while `capturing` never went
false — the Capturing-to-Capturing transition the claim rules out. -/
theorem claim_C9_bug :
    (runApp true [AppEvent.clickStart true, AppEvent.clickStart true,
        AppEvent.clickNext]).capturing = true ∧
    (runApp true [AppEvent.clickStart true, AppEvent.clickStart true,
        AppEvent.clickNext]).startDisabled = false ∧
    (stepApp (runApp true [AppEvent.clickStart true, AppEvent.clickStart true,
        AppEvent.clickNext]) (AppEvent.clickStart true)).capturing = true ∧
    (stepApp (runApp true [AppEvent.clickStart true, AppEvent.clickStart true,
        AppEvent.clickNext]) (AppEvent.clickStart true)).audioContext
      ≠ (runApp true [AppEvent.clickStart true, AppEvent.clickStart true,
          AppEvent.clickNext]).audioContext ∧
    (stepApp (runApp true [AppEvent.clickStart true, AppEvent.clickStart true,
        AppEvent.clickNext]) (AppEvent.clickStart true)).mediaStream
      ≠ (runApp true [AppEvent.clickStart true, AppEvent.clickStart true,
          AppEvent.clickNext]).mediaStream ∧
    (stepApp (runApp true [AppEvent.clickStart true, AppEvent.clickStart true,
        AppEvent.clickNext]) (AppEvent.clickStart true)).processor
      ≠ (runApp true [AppEvent.clickStart true, AppEvent.clickStart true,
          AppEvent.clickNext]).processor ∧
    stepApp (runApp true [AppEvent.clickStart true, AppEvent.clickStart true,
        AppEvent.clickNext]) (AppEvent.clickStart true)
      ≠ runApp true [AppEvent.clickStart true, AppEvent.clickStart true,
          AppEvent.clickNext] := by
  decide

/-- Witness for C10: the canonical texts match exactly, yet a missing `conf` gives
the Incorrect verdict. -/
theorem claim_C10_witness :
    confOf { text := str "touch nose", conf := none } = 0 ∧
    checkResult (str "touch_nose")
      { text := str "touch nose",
        alternatives := some [{ text := str "touch nose", conf := none }] }
      = Verdict.incorrect :=
  claim_C10 (str "touch_nose")
    { text := str "touch nose",
      alternatives := some [{ text := str "touch nose", conf := none }] }
    { text := str "touch nose", conf := none } rfl (Or.inl rfl)

end SLPCued
